import Mathlib

/-!
Verification of the signal-interpretation and position-sizing engine of the
tradingview-binance-bot repository (src/app.py), against its natural-language
specification.

The embedding mirrors `src/app.py`:
* `parse_tradingview_text` (lines 129-168): the free-text signal normalizer;
* `execute_trade_with_percentage` (lines 170-265): the position sizer,
  lot-size quantization and order-intent construction;
* `webhook` (lines 79-127): field extraction, secret check and dispatch.

Numeric model: the Python code computes with binary doubles; the embedding
uses exact rationals (`ℚ`).  Python `round(x, p)` rounds to the nearest
multiple of `10^(-p)`, ties to even; `roundHalfEven`/`pyRound` below embed
exactly that rule over `ℚ`.  For every concrete input appearing in a theorem
of this file the double computation is exact or far from a rounding tie, so
the rational value coincides with the value the Python code computes.
Strings are modelled over the ASCII fragment that the code's regular
expressions and the exchange's symbol/step-size grammar use.
-/

namespace TVBot

/-! ## Numeric primitives -/

/-- Rounding to the nearest integer, ties to even: the rounding rule of
Python's built-in `round`.  Embedded via the floor and the fractional part. -/
def roundHalfEven (x : ℚ) : ℤ :=
  if x - ⌊x⌋ < 1/2 then ⌊x⌋
  else if 1/2 < x - ⌊x⌋ then ⌊x⌋ + 1
  else if ⌊x⌋ % 2 = 0 then ⌊x⌋ else ⌊x⌋ + 1

/-- Python's `round(x, p)` for nonnegative `p`: round to the closest multiple
of `10^(-p)`, ties to even. -/
def pyRound (x : ℚ) (p : ℕ) : ℚ :=
  (roundHalfEven (x * 10 ^ p) : ℚ) / 10 ^ p

/-! ## Lot-size metadata (`LOT_SIZE` filter, src/app.py lines 200-212) -/

/-- A Binance `stepSize`, as the decimal literal the exchange serves
(e.g. `"0.00100000"` is `⟨0, [0,0,1,0,0,0,0,0]⟩`).  The model covers step
sizes whose Python `float` prints in plain decimal form (values in
`[1e-4, 1e16)` with at most 15 significant digits, which round-trip to the
written digits with trailing zeros stripped); Binance lot sizes used in the
claims are in this range. -/
structure StepSize where
  intPart : ℕ
  fracPart : List (Fin 10)
deriving DecidableEq

/-- Drop trailing zero digits, as `str(float(s))` (shortest repr) composed
with `.rstrip('0')` does to the fractional digit string. -/
def stripTrailingZeros (l : List (Fin 10)) : List (Fin 10) :=
  (l.reverse.dropWhile (fun d => d == 0)).reverse

/-- The code's `precision = len(str(step_size).split('.')[-1].rstrip('0'))`
(src/app.py line 209): the number of fractional digits of the step size
after stripping trailing zeros. -/
def StepSize.precision (s : StepSize) : ℕ :=
  (stripTrailingZeros s.fracPart).length

/-- Numeric value of the step size. -/
def StepSize.val (s : StepSize) : ℚ :=
  (s.intPart : ℚ) + s.fracPart.foldr (fun d acc => ((d.val : ℚ) + acc) / 10) 0

/-- Python's `str.lower()` on the ASCII fragment: lower-case every
character. -/
def pyLower (s : String) : String :=
  String.mk (s.data.map Char.toLower)

/-- Python's `str.upper()` on the ASCII fragment: upper-case every
character. -/
def pyUpper (s : String) : String :=
  String.mk (s.data.map Char.toUpper)

/-- One entry of `symbol_info['filters']`; only the `LOT_SIZE` entry's
`stepSize` is ever read by the code. -/
structure ExchangeFilter where
  filterType : String
  stepSize : StepSize
deriving DecidableEq

/-- The `for f in symbol_info['filters']: if f['filterType'] == 'LOT_SIZE':
step_size = float(f['stepSize']); break` loop (src/app.py lines 202-205):
the first `LOT_SIZE` filter, if any. -/
def findStepSize (fs : List ExchangeFilter) : Option StepSize :=
  (fs.find? (fun f => f.filterType == "LOT_SIZE")).map (fun f => f.stepSize)

/-- The precision the buy path rounds to (src/app.py lines 207-212):
the step-size-derived precision when a `LOT_SIZE` step was found and is
truthy (nonzero float), the default `6` otherwise. -/
def quantPrecision (step : Option StepSize) : ℕ :=
  match step with
  | some s => if s.val ≠ 0 then s.precision else 6
  | none => 6

/-- The quantization the buy path applies to the raw quantity:
`quantity = round(quantity, precision)` (src/app.py lines 210 and 212). -/
def quantize (raw : ℚ) (step : Option StepSize) : ℚ :=
  pyRound raw (quantPrecision step)

/-! ## Account state and configuration -/

/-- The point-in-time account and market data the collaborator calls return:
`get_asset_balance(asset)['free']`, `get_symbol_ticker(...)['price']` and
`get_symbol_info(...)['filters']`. -/
structure Account where
  assetFree : String → ℚ
  price : ℚ
  filters : List ExchangeFilter

/-- The environment-derived configuration (src/app.py lines 19-23):
`RISK_PERCENTAGE`, `MIN_USDT_BALANCE`, `WEBHOOK_SECRET`. -/
structure Config where
  riskPercentage : ℚ
  minUsdtBalance : ℚ
  webhookSecret : String

/-- The defaults: risk 5%, minimum balance 10 USDT, secret
`my_secret_123`. -/
def cfgDefault : Config :=
  { riskPercentage := 5, minUsdtBalance := 10, webhookSecret := "my_secret_123" }

/-- The amount `usdt_to_trade = (available_usdt - MIN_USDT_BALANCE) * (RISK_PERCENTAGE / 100)`
(src/app.py line 183). -/
def usdtToTrade (cfg : Config) (acct : Account) : ℚ :=
  (acct.assetFree "USDT" - cfg.minUsdtBalance) * (cfg.riskPercentage / 100)

/-- The derivation `asset = symbol.replace('USDT', '')` (src/app.py line 225): remove every
(case-sensitive, non-overlapping, left-to-right) occurrence of `USDT`. -/
def stripUSDT : List Char → List Char
  | 'U' :: 'S' :: 'D' :: 'T' :: rest => stripUSDT rest
  | c :: rest => c :: stripUSDT rest
  | [] => []

/-- The base asset the sell path derives from the symbol. -/
def baseAsset (symbol : String) : String :=
  String.mk (stripUSDT symbol.data)

/-! ## Sizing outcome (`execute_trade_with_percentage`, src/app.py 170-265) -/

/-- The distinguishable outcomes of `execute_trade_with_percentage`: the four
rejection dictionaries and the two success dictionaries (whose
quantity / usdt_amount / price fields are carried). -/
inductive TradeResult
  | insufficientBalance (available : ℚ)
  | amountTooSmall (amount : ℚ)
  | noAssetToSell (asset : String)
  | invalidAction (action : String)
  | buyExecuted (quantity usdtAmount price : ℚ)
  | sellExecuted (quantity usdtAmount price : ℚ)
deriving DecidableEq

/-- Whether a result is the `Insufficient USDT balance` rejection
(src/app.py line 180), the code's `InsufficientReserve` reason. -/
def isInsufficientReserve : TradeResult → Bool
  | .insufficientBalance _ => true
  | _ => false

/-- Whether a result is an accepted sell. -/
def isSellAccepted : TradeResult → Bool
  | .sellExecuted _ _ _ => true
  | _ => false

/-- The function `execute_trade_with_percentage(action, symbol)` (src/app.py lines
170-265), with the collaborator reads supplied by `acct`:
1. reject when `available_usdt < MIN_USDT_BALANCE` (line 179);
2. reject when `usdt_to_trade < 10` (line 187);
3. buy: quantize `usdt_to_trade / current_price` by the `LOT_SIZE` step
   (lines 196-221);
4. sell: reject when the base-asset balance is zero, else sell the full
   free balance (lines 223-244);
5. otherwise the `Invalid action` rejection (line 247). -/
def execute_trade_with_percentage (cfg : Config) (action symbol : String)
    (acct : Account) : TradeResult :=
  if acct.assetFree "USDT" < cfg.minUsdtBalance then
    .insufficientBalance (acct.assetFree "USDT")
  else if usdtToTrade cfg acct < 10 then
    .amountTooSmall (usdtToTrade cfg acct)
  else if pyLower action = "buy" then
    .buyExecuted (quantize (usdtToTrade cfg acct / acct.price) (findStepSize acct.filters))
      (usdtToTrade cfg acct) acct.price
  else if pyLower action = "sell" then
    if acct.assetFree (baseAsset symbol) = 0 then
      .noAssetToSell (baseAsset symbol)
    else
      .sellExecuted (acct.assetFree (baseAsset symbol))
        (acct.assetFree (baseAsset symbol) * acct.price) acct.price
  else
    .invalidAction action

/-! ## Free-text signal parsing (`parse_tradingview_text`, src/app.py 129-168)

The patterns `(BUY|SELL)\s+(\w+)\s+QTY=([0-9.]+)` and
`CLOSE\s+(LONG|SHORT)\s+(\w+)` are matched with `re.match` (anchored at the
start, trailing text allowed) and `re.IGNORECASE`.  Because the character
classes of adjacent regex pieces are disjoint (`\w`, `\s`, literals), greedy
maximal-run matching is exact: no backtracking can succeed where it fails.
The model covers the ASCII fragment of `\s`, `\w` and the case folding. -/

/-- The ASCII characters of the regex class `\s` (also the characters
`str.strip()` removes). -/
def pyIsSpace (c : Char) : Bool :=
  c == ' ' || c == '\t' || c == '\n' || c == '\r' || c == '\x0b' || c == '\x0c'

/-- The ASCII characters of the regex class `\w`. -/
def pyIsWord (c : Char) : Bool :=
  c.isAlphanum || c == '_'

/-- The characters of the class `[0-9.]` (the QTY capture). -/
def pyIsQty (c : Char) : Bool :=
  c.isDigit || c == '.'

/-- The call `text.strip()` (src/app.py line 133): remove leading and trailing
whitespace. -/
def pyStripChars (l : List Char) : List Char :=
  ((l.dropWhile pyIsSpace).reverse.dropWhile pyIsSpace).reverse

/-- Match a literal pattern case-insensitively at the head of the input,
returning the remaining input (the `re.IGNORECASE` treatment of the
literal parts of the patterns). -/
def dropPrefixCI : List Char → List Char → Option (List Char)
  | [], l => some l
  | _ :: _, [] => none
  | p :: ps, c :: cs => if p.toLower = c.toLower then dropPrefixCI ps cs else none

/-- The maximal run of characters satisfying `p` at the head of the input,
and the remainder: the semantics of a greedy `X+` whose class is disjoint
from what follows. -/
def takeRun (p : Char → Bool) (l : List Char) : List Char × List Char :=
  (l.takeWhile p, l.dropWhile p)

/-- One alternative of pattern 1 at a fixed keyword: the keyword, one or
more whitespace, a nonempty `\w+` symbol, one or more whitespace, the
literal `QTY=` and a nonempty `[0-9.]+` run.  On success, the lower-cased
action and the upper-cased symbol; the captured quantity is required to be
nonempty but its value is discarded, exactly as the code ignores
`match1.group(3)`. -/
def tryActionKw (l kw : List Char) (act : String) : Option (String × String) :=
  match dropPrefixCI kw l with
  | none => none
  | some r1 =>
    match takeRun pyIsSpace r1 with
    | ([], _) => none
    | (_ :: _, r2) =>
      match takeRun pyIsWord r2 with
      | ([], _) => none
      | (sym, r3) =>
        match takeRun pyIsSpace r3 with
        | ([], _) => none
        | (_ :: _, r4) =>
          match dropPrefixCI ['Q','T','Y','='] r4 with
          | none => none
          | some r5 =>
            match takeRun pyIsQty r5 with
            | ([], _) => none
            | (_ :: _, _) => some (act, String.mk (sym.map Char.toUpper))

/-- Pattern 1, `(BUY|SELL)\s+(\w+)\s+QTY=([0-9.]+)` (src/app.py lines
136-147): the `BUY` alternative, then the `SELL` alternative. -/
def matchPattern1 (l : List Char) : Option (String × String) :=
  (tryActionKw l ['B','U','Y'] "buy").orElse fun _ =>
    tryActionKw l ['S','E','L','L'] "sell"

/-- One alternative of pattern 2 at a fixed direction keyword applied after
`CLOSE\s+`: the direction, one or more whitespace, a nonempty `\w+`
symbol. -/
def tryDirKw (r2 kw : List Char) (dir : String) : Option (String × String) :=
  match dropPrefixCI kw r2 with
  | none => none
  | some r3 =>
    match takeRun pyIsSpace r3 with
    | ([], _) => none
    | (_ :: _, r4) =>
      match takeRun pyIsWord r4 with
      | ([], _) => none
      | (sym, _) => some (dir, String.mk (sym.map Char.toUpper))

/-- Pattern 2, `CLOSE\s+(LONG|SHORT)\s+(\w+)` (src/app.py lines 150-161):
on success, the lower-cased direction and the upper-cased symbol. -/
def matchPattern2 (l : List Char) : Option (String × String) :=
  match dropPrefixCI ['C','L','O','S','E'] l with
  | none => none
  | some r1 =>
    match takeRun pyIsSpace r1 with
    | ([], _) => none
    | (_ :: _, r2) =>
      (tryDirKw r2 ['L','O','N','G'] "long").orElse fun _ =>
        tryDirKw r2 ['S','H','O','R','T'] "short"

/-- The dictionary `parse_tradingview_text` returns on success: the
`action`, `symbol` and `source` fields. -/
structure ParsedSignal where
  action : String
  symbol : String
  source : String
deriving DecidableEq

/-- The function `parse_tradingview_text(text)` (src/app.py lines 129-168): strip the
text, try pattern 1, then pattern 2 (`CLOSE LONG → sell`,
`CLOSE SHORT → buy`), otherwise `None`. -/
def parse_tradingview_text (text : String) : Option ParsedSignal :=
  match matchPattern1 (pyStripChars text.data) with
  | some (act, sym) => some ⟨act, sym, "tradingview_text"⟩
  | none =>
    match matchPattern2 (pyStripChars text.data) with
    | some (dir, sym) =>
      some ⟨if dir = "long" then "sell" else "buy", sym, "tradingview_close"⟩
    | none => none

/-! ## The webhook handler (src/app.py lines 79-127) -/

/-- The fields of the webhook payload dictionary the handler reads.  A
missing key is `none`; a key present with the empty string is
`some ""` (falsy in Python, which the handler's truthiness tests
observe). -/
structure WebhookData where
  action : Option String
  side : Option String
  symbol : Option String
  secret : Option String

/-- The extraction `action = data.get('action') or data.get('side', '').lower()`
(src/app.py line 101): the `action` field when present and truthy,
otherwise the lower-cased `side` field (empty when absent). -/
def effAction (d : WebhookData) : String :=
  match d.action with
  | some a => if a = "" then pyLower (d.side.getD "") else a
  | none => pyLower (d.side.getD "")

/-- The check `if webhook_secret and webhook_secret != WEBHOOK_SECRET` (src/app.py
line 106): the request is rejected only when a `secret` field is present,
truthy (nonempty) and different from the configured secret. -/
def secretRejected (cfg : Config) (d : WebhookData) : Bool :=
  match d.secret with
  | none => false
  | some s => if s = "" then false else if s = cfg.webhookSecret then false else true

/-- The distinguishable outcomes of the webhook handler (with the Binance
client configured): the 400 for unparseable data, the 401 for a bad
secret, the 400 for a missing action, or the result of
`execute_trade_with_percentage`. -/
inductive WebhookResult
  | noValidData
  | invalidSecret
  | noAction
  | trade (r : TradeResult)
deriving DecidableEq

/-- The webhook handler after the secret check (src/app.py lines 110-116):
reject when the action is falsy, otherwise execute the trade. -/
def webhookProceed (cfg : Config) (d : WebhookData) (acct : Account) : WebhookResult :=
  if effAction d = "" then .noAction
  else .trade (execute_trade_with_percentage cfg (effAction d) (d.symbol.getD "BTCUSDT") acct)

/-- The webhook handler on an extracted payload (src/app.py lines 100-116):
the secret check (lines 104-108) runs first, then the action check and
the trade. -/
def webhook (cfg : Config) (d : WebhookData) (acct : Account) : WebhookResult :=
  if secretRejected cfg d then .invalidSecret else webhookProceed cfg d acct

/-- The webhook handler on a free-text body (src/app.py lines 90-96): parse
the text; a failed parse is the `No valid data received` 400, otherwise
the parsed dictionary (which carries no `secret` and no `side` key) is
processed. -/
def webhookText (cfg : Config) (text : String) (acct : Account) : WebhookResult :=
  match parse_tradingview_text text with
  | none => .noValidData
  | some p => webhook cfg ⟨some p.action, none, some p.symbol, none⟩ acct

/-- The text body `BUY <SYM> QTY=<n>` of a TradingView alert. -/
def buyText (sym qty : String) : String :=
  "BUY " ++ sym ++ " QTY=" ++ qty

/-! ## Concrete account states and payloads used by the claims -/

/-- The account of the spec's worked sizing example: 1000 free USDT, price
50000, lot step `0.0001`. -/
def acctExample : Account :=
  { assetFree := fun a => if a = "USDT" then 1000 else 0,
    price := 50000,
    filters := [⟨"LOT_SIZE", ⟨0, [0,0,0,1]⟩⟩] }

/-- An account with 1010 free USDT, price `500/3`, and the
non-power-of-ten lot step `0.25`: the raw buy quantity is exactly
`50 / (500/3) = 0.3`. -/
def acctQuarterStep : Account :=
  { assetFree := fun a => if a = "USDT" then 1010 else 0,
    price := 500/3,
    filters := [⟨"LOT_SIZE", ⟨0, [2,5]⟩⟩] }

/-- An account whose free USDT equals the reserve floor exactly. -/
def acctAtReserve : Account :=
  { assetFree := fun a => if a = "USDT" then 10 else 0,
    price := 100,
    filters := [] }

/-- An account with only 5 free USDT, below the 10-USDT reserve floor,
holding 5 of every other asset. -/
def acctPoor : Account :=
  { assetFree := fun a => if a = "USDT" then 5 else 5,
    price := 100,
    filters := [] }

/-- An account with zero free USDT but 5 free units of every other asset
(in particular 5 BTC). -/
def acctNoUsdt : Account :=
  { assetFree := fun a => if a = "USDT" then 0 else 5,
    price := 100,
    filters := [] }

/-- An account with ample USDT (1010) and 5 free units of every other
asset. -/
def acctRich : Account :=
  { assetFree := fun a => if a = "USDT" then 1010 else 5,
    price := 100,
    filters := [] }

/-- A webhook payload whose action is `hold` (neither buy nor sell). -/
def dataHold : WebhookData :=
  ⟨some "hold", none, some "BTCUSDT", none⟩

/-- A webhook payload carrying a wrong, nonempty secret. -/
def dataWrongSecret : WebhookData :=
  ⟨some "buy", none, some "BTCUSDT", some "nope"⟩

/-- A webhook payload carrying an empty (falsy) secret. -/
def dataEmptySecret : WebhookData :=
  ⟨some "buy", none, some "BTCUSDT", some ""⟩

/-! ## Evaluation lemmas for the rounding primitives -/

/-- Evaluate `roundHalfEven` when the fractional part is below one half. -/
lemma roundHalfEven_eq_low (x : ℚ) (n : ℤ) (h1 : (n : ℚ) ≤ x) (h2 : x < n + 1)
    (h : x - n < 1/2) : roundHalfEven x = n := by
  have hfl : ⌊x⌋ = n := by
    rw [Int.floor_eq_iff]
    exact ⟨h1, h2⟩
  unfold roundHalfEven
  rw [hfl, if_pos h]

/-- Evaluate `roundHalfEven` when the fractional part is above one half. -/
lemma roundHalfEven_eq_high (x : ℚ) (n : ℤ) (h1 : (n : ℚ) ≤ x) (h2 : x < n + 1)
    (h : 1/2 < x - n) : roundHalfEven x = n + 1 := by
  have hfl : ⌊x⌋ = n := by
    rw [Int.floor_eq_iff]
    exact ⟨h1, h2⟩
  unfold roundHalfEven
  rw [hfl, if_neg (by linarith), if_pos h]

/-- Evaluate `pyRound` when the scaled value sits below the half-way point. -/
lemma pyRound_eq_low (x : ℚ) (p : ℕ) (n : ℤ) (h1 : (n : ℚ) ≤ x * 10 ^ p)
    (h2 : x * 10 ^ p < n + 1) (h : x * 10 ^ p - n < 1/2) :
    pyRound x p = (n : ℚ) / 10 ^ p := by
  unfold pyRound
  rw [roundHalfEven_eq_low (x * 10 ^ p) n h1 h2 h]

/-- Evaluate `pyRound` when the scaled value sits above the half-way point. -/
lemma pyRound_eq_high (x : ℚ) (p : ℕ) (n : ℤ) (h1 : (n : ℚ) ≤ x * 10 ^ p)
    (h2 : x * 10 ^ p < n + 1) (h : 1/2 < x * 10 ^ p - n) :
    pyRound x p = ((n : ℚ) + 1) / 10 ^ p := by
  unfold pyRound
  rw [roundHalfEven_eq_high (x * 10 ^ p) n h1 h2 h]
  push_cast
  ring

/-- Reduce `quantPrecision` on a found, nonzero step. -/
lemma quantPrecision_some (s : StepSize) (h : s.val ≠ 0) :
    quantPrecision (some s) = s.precision := by
  show (if s.val ≠ 0 then s.precision else 6) = s.precision
  exact if_pos h

/-! ## Bounds on the rounding primitives -/

/-- Round-half-even overshoots its argument by at most one half. -/
lemma roundHalfEven_le_add_half (x : ℚ) : (roundHalfEven x : ℚ) ≤ x + 1/2 := by
  have hfl : (⌊x⌋ : ℚ) ≤ x := Int.floor_le x
  unfold roundHalfEven
  split_ifs with h1 h2 h3
  · linarith
  · push_cast
    linarith
  · linarith
  · have h1' : (1:ℚ)/2 ≤ x - ⌊x⌋ := not_lt.mp h1
    push_cast
    linarith

/-- Rounding with `pyRound` overshoots its argument by at most half an increment of the
rounding grid. -/
lemma pyRound_le_add_half_ulp (x : ℚ) (p : ℕ) :
    pyRound x p ≤ x + 1 / (2 * 10 ^ p) := by
  have hpos : (0:ℚ) < 10 ^ p := by positivity
  have h := roundHalfEven_le_add_half (x * 10 ^ p)
  unfold pyRound
  rw [div_le_iff₀ hpos]
  calc (roundHalfEven (x * 10 ^ p) : ℚ) ≤ x * 10 ^ p + 1/2 := h
    _ = (x + 1 / (2 * 10 ^ p)) * 10 ^ p := by
        field_simp
        ring

/-- Every `pyRound` result lies on the grid of multiples of `10^(-p)`. -/
lemma pyRound_mem_grid (x : ℚ) (p : ℕ) :
    ∃ k : ℤ, pyRound x p = (k : ℚ) / 10 ^ p :=
  ⟨roundHalfEven (x * 10 ^ p), rfl⟩

/-! ## Trailing zeros of the step-size digit string -/

/-- Appending trailing zero digits does not change the stripped digit
string. -/
lemma stripTrailingZeros_append_zeros (l : List (Fin 10)) (k : ℕ) :
    stripTrailingZeros (l ++ List.replicate k 0) = stripTrailingZeros l := by
  unfold stripTrailingZeros
  rw [List.reverse_append, List.reverse_replicate]
  congr 1
  induction k with
  | zero => simp
  | succ n ih =>
    rw [List.replicate_succ, List.cons_append, List.dropWhile_cons]
    simp only [ih]
    norm_num

/-- Appending trailing zero digits does not change the numeric value of the
step size. -/
lemma stepVal_append_zeros (i : ℕ) (l : List (Fin 10)) (k : ℕ) :
    (StepSize.mk i (l ++ List.replicate k 0)).val = (StepSize.mk i l).val := by
  unfold StepSize.val
  congr 1
  rw [List.foldr_append]
  have hz : List.foldr (fun d acc => ((d.val : ℚ) + acc) / 10) 0 (List.replicate k (0 : Fin 10)) = 0 := by
    induction k with
    | zero => rfl
    | succ n ih =>
      rw [List.replicate_succ, List.foldr_cons, ih]
      norm_num
  rw [hz]

/-! ## Character-class and maximal-run lemmas for the parser -/

/-- A `\w` character is not a `\s` character. -/
lemma not_space_of_word (c : Char) (h : pyIsWord c = true) : pyIsSpace c = false := by
  cases hps : pyIsSpace c with
  | false => rfl
  | true =>
    have hmem : c = ' ' ∨ c = '\t' ∨ c = '\n' ∨ c = '\r' ∨ c = '\x0b' ∨ c = '\x0c' := by
      unfold pyIsSpace at hps
      simp only [Bool.or_eq_true, beq_iff_eq] at hps
      tauto
    rcases hmem with rfl | rfl | rfl | rfl | rfl | rfl <;> exact absurd h (by decide)

/-- A `[0-9.]` character is not a `\s` character. -/
lemma not_space_of_qty (c : Char) (h : pyIsQty c = true) : pyIsSpace c = false := by
  cases hps : pyIsSpace c with
  | false => rfl
  | true =>
    have hmem : c = ' ' ∨ c = '\t' ∨ c = '\n' ∨ c = '\r' ∨ c = '\x0b' ∨ c = '\x0c' := by
      unfold pyIsSpace at hps
      simp only [Bool.or_eq_true, beq_iff_eq] at hps
      tauto
    rcases hmem with rfl | rfl | rfl | rfl | rfl | rfl <;> exact absurd h (by decide)

/-- Taking `takeWhile` over an append whose left part satisfies the predicate
throughout. -/
lemma takeWhile_append_all (p : Char → Bool) :
    ∀ (l r : List Char), (∀ c ∈ l, p c = true) →
      (l ++ r).takeWhile p = l ++ r.takeWhile p
  | [], _, _ => by simp
  | a :: l, r, h => by
    rw [List.cons_append, List.takeWhile_cons, h a (by simp),
      takeWhile_append_all p l r (fun c hc => h c (by simp [hc]))]
    simp

/-- Taking `dropWhile` over an append whose left part satisfies the predicate
throughout. -/
lemma dropWhile_append_all (p : Char → Bool) :
    ∀ (l r : List Char), (∀ c ∈ l, p c = true) →
      (l ++ r).dropWhile p = r.dropWhile p
  | [], _, _ => by simp
  | a :: l, r, h => by
    rw [List.cons_append, List.dropWhile_cons, h a (by simp)]
    exact dropWhile_append_all p l r (fun c hc => h c (by simp [hc]))

/-- Maximal-run extraction when the input splits into a run of the class
followed by a character outside the class. -/
lemma takeRun_eq_of (p : Char → Bool) (l₁ l rest : List Char) (c : Char)
    (hshape : l₁ = l ++ c :: rest) (hl : ∀ x ∈ l, p x = true) (hc : p c = false) :
    takeRun p l₁ = (l, c :: rest) := by
  subst hshape
  unfold takeRun
  rw [takeWhile_append_all p l _ hl, dropWhile_append_all p l _ hl,
    List.takeWhile_cons, List.dropWhile_cons, hc]
  simp

/-- Maximal-run extraction when the whole input lies in the class. -/
lemma takeRun_all (p : Char → Bool) (l : List Char) (hl : ∀ x ∈ l, p x = true) :
    takeRun p l = (l, []) := by
  have ht := takeWhile_append_all p l [] hl
  have hd := dropWhile_append_all p l [] hl
  unfold takeRun
  rw [List.append_nil] at ht hd
  rw [ht, hd]
  simp

/-- The field `String.data` distributes over append. -/
lemma data_append (s t : String) : (s ++ t).data = s.data ++ t.data := by
  cases s
  cases t
  rfl

/-- Stripping via `text.strip()` is the identity when the first and last characters are
not whitespace. -/
lemma pyStripChars_noop (a b : Char) (m : List Char)
    (ha : pyIsSpace a = false) (hb : pyIsSpace b = false) :
    pyStripChars (a :: (m ++ [b])) = a :: (m ++ [b]) := by
  unfold pyStripChars
  rw [List.dropWhile_cons, ha]
  simp only [Bool.false_eq_true, if_false]
  have h2 : (a :: (m ++ [b])).reverse = b :: (m.reverse ++ [a]) := by simp
  rw [h2, List.dropWhile_cons, hb]
  simp

/-- Parsing `BUY <SYM> QTY=<n>` for a nonempty `\w+` symbol and a nonempty
`[0-9.]+` quantity succeeds with action `buy` and the upper-cased symbol;
the parsed result does not depend on the quantity. -/
lemma parse_buyText (sym qty : String) (hs : sym.data ≠ [])
    (hsw : ∀ c ∈ sym.data, pyIsWord c = true)
    (hq : qty.data ≠ []) (hqc : ∀ c ∈ qty.data, pyIsQty c = true) :
    parse_tradingview_text (buyText sym qty)
      = some ⟨"buy", pyUpper sym, "tradingview_text"⟩ := by
  obtain ⟨s0, st, hsym⟩ := List.exists_cons_of_ne_nil hs
  obtain ⟨q0, qt, hq0⟩ := List.exists_cons_of_ne_nil hq
  rcases List.eq_nil_or_concat qty.data with hnil | ⟨qi, qlast, hqty⟩
  · exact absurd hnil hq
  have hflat : (buyText sym qty).data
      = 'B' :: 'U' :: 'Y' :: ' ' :: (sym.data ++ (' ' :: 'Q' :: 'T' :: 'Y' :: '=' :: qty.data)) := by
    show ("BUY " ++ sym ++ " QTY=" ++ qty).data = _
    rw [data_append, data_append, data_append]
    simp
  have hqlast : pyIsQty qlast = true := hqc qlast (by rw [hqty]; simp)
  have hstrip : pyStripChars (buyText sym qty).data = (buyText sym qty).data := by
    have hshape : (buyText sym qty).data
        = 'B' :: ((['U','Y',' '] ++ sym.data ++ [' ','Q','T','Y','='] ++ qi) ++ [qlast]) := by
      rw [hflat, hqty]
      simp
    rw [hshape, pyStripChars_noop 'B' qlast _ (by decide) (not_space_of_qty qlast hqlast)]
  have hbuy : tryActionKw (buyText sym qty).data ['B','U','Y'] "buy"
      = some ("buy", pyUpper sym) := by
    rw [hflat]
    have hd1 : dropPrefixCI ['B','U','Y']
        ('B' :: 'U' :: 'Y' :: ' ' :: (sym.data ++ (' ' :: 'Q' :: 'T' :: 'Y' :: '=' :: qty.data)))
        = some (' ' :: (sym.data ++ (' ' :: 'Q' :: 'T' :: 'Y' :: '=' :: qty.data))) := by
      simp [dropPrefixCI]
    have ht1 : takeRun pyIsSpace (' ' :: (sym.data ++ (' ' :: 'Q' :: 'T' :: 'Y' :: '=' :: qty.data)))
        = ([' '], s0 :: (st ++ (' ' :: 'Q' :: 'T' :: 'Y' :: '=' :: qty.data))) := by
      refine takeRun_eq_of pyIsSpace _ [' '] _ s0 ?_ (by decide)
        (not_space_of_word s0 (hsw s0 (by rw [hsym]; simp)))
      rw [hsym]
      simp
    have ht2 : takeRun pyIsWord (s0 :: (st ++ (' ' :: 'Q' :: 'T' :: 'Y' :: '=' :: qty.data)))
        = (s0 :: st, ' ' :: ('Q' :: 'T' :: 'Y' :: '=' :: qty.data)) := by
      refine takeRun_eq_of pyIsWord _ (s0 :: st) _ ' ' (by simp) ?_ (by decide)
      rw [← hsym]
      exact hsw
    have ht3 : takeRun pyIsSpace (' ' :: ('Q' :: 'T' :: 'Y' :: '=' :: qty.data))
        = ([' '], 'Q' :: ('T' :: 'Y' :: '=' :: qty.data)) := by
      exact takeRun_eq_of pyIsSpace _ [' '] _ 'Q' (by simp) (by decide) (by decide)
    have hd2 : dropPrefixCI ['Q','T','Y','=']
        ('Q' :: ('T' :: 'Y' :: '=' :: qty.data)) = some qty.data := by
      simp [dropPrefixCI]
    have ht4 : takeRun pyIsQty qty.data = (q0 :: qt, []) := by
      rw [← hq0]
      exact takeRun_all pyIsQty qty.data hqc
    simp only [tryActionKw, hd1, ht1, ht2, ht3, hd2, ht4]
    simp [pyUpper, hsym]
  have hm1 : matchPattern1 (buyText sym qty).data = some ("buy", pyUpper sym) := by
    unfold matchPattern1
    rw [hbuy]
    rfl
  unfold parse_tradingview_text
  rw [hstrip, hm1]

/-! ## Evaluation of the sizing pipeline on the concrete accounts -/

/-- Every quantization result lies on the grid of integer multiples of
`10^(-p)` for the derived precision `p`. -/
lemma quantize_mem_grid (x : ℚ) (step : Option StepSize) :
    ∃ k : ℤ, quantize x step = (k : ℚ) / 10 ^ quantPrecision step :=
  ⟨roundHalfEven (x * 10 ^ quantPrecision step), rfl⟩

/-- A rational that is an integer multiple of `s ≠ 0` has zero fractional
part after division by `s`; contrapositively, `Int.fract (q / s) ≠ 0`
certifies that `q` is not an exact multiple of `s`. -/
lemma fract_of_int_multiple (q s : ℚ) (hs : s ≠ 0) (k : ℤ) (h : q = (k : ℚ) * s) :
    Int.fract (q / s) = 0 := by
  rw [h, mul_div_assoc, div_self hs, mul_one, Int.fract_intCast]

/-- The spec's worked example, evaluated on the code: free 1000 USDT,
reserve 10, risk 5%, price 50000, step `0.0001` gives notional `49.5`,
raw quantity `0.00099`, and `round(0.00099, 4) = 0.001` (round half even
rounds this value up). -/
lemma execute_acctExample_eval :
    execute_trade_with_percentage cfgDefault "buy" "BTCUSDT" acctExample
      = TradeResult.buyExecuted (1/1000) (99/2) 50000 := by
  have hu : usdtToTrade cfgDefault acctExample = 99/2 := by
    show ((1000:ℚ) - 10) * (5 / 100) = 99/2
    norm_num
  unfold execute_trade_with_percentage
  rw [if_neg (show ¬ acctExample.assetFree "USDT" < cfgDefault.minUsdtBalance by
        show ¬ (1000:ℚ) < 10; norm_num),
    hu, if_neg (show ¬ (99:ℚ)/2 < 10 by norm_num),
    if_pos (show pyLower "buy" = "buy" from rfl)]
  have hq : quantize ((99:ℚ)/2 / acctExample.price) (findStepSize acctExample.filters)
      = 1/1000 := by
    show quantize ((99:ℚ)/2 / 50000) (findStepSize acctExample.filters) = 1/1000
    rw [show findStepSize acctExample.filters = some ⟨0, [0,0,0,1]⟩ from rfl]
    unfold quantize
    rw [quantPrecision_some _ (show (⟨0, [0,0,0,1]⟩ : StepSize).val ≠ 0 by
          norm_num [StepSize.val])]
    rw [show (⟨0, [0,0,0,1]⟩ : StepSize).precision = 4 from rfl]
    rw [pyRound_eq_high ((99:ℚ)/2/50000) 4 9 (by norm_num) (by norm_num) (by norm_num)]
    norm_num
  rw [hq]
  rfl

/-- The `0.25`-step account, evaluated on the code: notional `50`, raw
quantity `50 / (500/3) = 0.3`, derived precision 2, `round(0.3, 2) = 0.3`. -/
lemma execute_acctQuarterStep_eval :
    execute_trade_with_percentage cfgDefault "buy" "BTCUSDT" acctQuarterStep
      = TradeResult.buyExecuted (3/10) 50 (500/3) := by
  have hu : usdtToTrade cfgDefault acctQuarterStep = 50 := by
    show ((1010:ℚ) - 10) * (5 / 100) = 50
    norm_num
  unfold execute_trade_with_percentage
  rw [if_neg (show ¬ acctQuarterStep.assetFree "USDT" < cfgDefault.minUsdtBalance by
        show ¬ (1010:ℚ) < 10; norm_num),
    hu, if_neg (show ¬ (50:ℚ) < 10 by norm_num),
    if_pos (show pyLower "buy" = "buy" from rfl)]
  have hq : quantize ((50:ℚ) / acctQuarterStep.price) (findStepSize acctQuarterStep.filters)
      = 3/10 := by
    show quantize ((50:ℚ) / (500/3)) (findStepSize acctQuarterStep.filters) = 3/10
    rw [show findStepSize acctQuarterStep.filters = some ⟨0, [2,5]⟩ from rfl]
    unfold quantize
    rw [quantPrecision_some _ (show (⟨0, [2,5]⟩ : StepSize).val ≠ 0 by
          norm_num [StepSize.val, show ((2 : Fin 10).val) = 2 from rfl,
            show ((5 : Fin 10).val) = 5 from rfl])]
    rw [show (⟨0, [2,5]⟩ : StepSize).precision = 2 from rfl]
    rw [pyRound_eq_low ((50:ℚ)/(500/3)) 2 30 (by norm_num) (by norm_num) (by norm_num)]
    norm_num
  rw [hq]
  rfl

/-! ## The claims -/

/-- C1, counterexample: quantization DOES round up.  At raw quantity
`0.00099` and lot step `0.0001` (precision 4), `round(0.00099, 4) = 0.001`,
which exceeds the raw quantity — the claim `quantize(x, c) <= x` is false,
and on the spec's own worked buy example the quantity handed to order
placement exceeds `notionalValue / price`. -/
theorem C1_counterexample :
    ¬ quantize (99/100000) (some ⟨0, [0,0,0,1]⟩) ≤ 99/100000 := by
  have h : quantize ((99:ℚ)/100000) (some ⟨0, [0,0,0,1]⟩) = 1/1000 := by
    unfold quantize
    rw [quantPrecision_some _ (show (⟨0, [0,0,0,1]⟩ : StepSize).val ≠ 0 by
          norm_num [StepSize.val])]
    rw [show (⟨0, [0,0,0,1]⟩ : StepSize).precision = 4 from rfl]
    rw [pyRound_eq_high ((99:ℚ)/100000) 4 9 (by norm_num) (by norm_num) (by norm_num)]
    norm_num
  rw [h]
  norm_num

/-- C1, amended: the code quantizes with Python `round` (nearest, ties to
even), not by rounding down; quantization can exceed the raw quantity, but
never by more than half a grid increment:
`quantize(x, c) <= x + 10^(-precision) / 2` for every raw quantity and
every lot constraint. -/
theorem C1_quantize_at_most_half_ulp_above (x : ℚ) (step : Option StepSize) :
    quantize x step ≤ x + 1 / (2 * 10 ^ quantPrecision step) :=
  pyRound_le_add_half_ulp x (quantPrecision step)

/-- C2, counterexample: on the spec's worked example (free 1000, reserve
10, risk 5%, price 50000, step 0.0001) the accepted quantity is `0.001`,
not the claimed `0.0009`. -/
theorem C2_counterexample :
    execute_trade_with_percentage cfgDefault "buy" "BTCUSDT" acctExample
        = TradeResult.buyExecuted (1/1000) (99/2) 50000
    ∧ (1/1000 : ℚ) ≠ 9/10000 :=
  ⟨execute_acctExample_eval, by norm_num⟩

/-- C2, amended: the pipeline accepts the trade with
`notionalValue = 49.5` and `rawQuantity = 0.00099` as claimed, but the
final quantized quantity is `0.001` (Python `round` to 4 digits rounds
`0.00099` to the nearest grid point, upward), not `0.0009`. -/
theorem C2_pipeline_example :
    usdtToTrade cfgDefault acctExample = 99/2
    ∧ usdtToTrade cfgDefault acctExample / acctExample.price = 99/100000
    ∧ execute_trade_with_percentage cfgDefault "buy" "BTCUSDT" acctExample
        = TradeResult.buyExecuted (1/1000) (99/2) 50000 :=
  ⟨by show ((1000:ℚ) - 10) * (5 / 100) = 99/2; norm_num,
   by show ((1000:ℚ) - 10) * (5 / 100) / 50000 = 99/100000; norm_num,
   execute_acctExample_eval⟩

/-- C3, counterexample: with lot step `0.25` (derived precision 2) and raw
quantity `0.3`, the accepted buy quantity is `0.3`, and `0.3 / 0.25 = 1.2`
has nonzero fractional part, so the quantity is not an exact multiple of
the step (`fract_of_int_multiple` certifies that an exact multiple would
have fractional part zero). -/
theorem C3_counterexample :
    execute_trade_with_percentage cfgDefault "buy" "BTCUSDT" acctQuarterStep
        = TradeResult.buyExecuted (3/10) 50 (500/3)
    ∧ Int.fract ((3/10 : ℚ) / (StepSize.mk 0 [2,5]).val) ≠ 0 := by
  refine ⟨execute_acctQuarterStep_eval, ?_⟩
  have hval : (StepSize.mk 0 [2,5]).val = 1/4 := by
    norm_num [StepSize.val, show ((2 : Fin 10).val) = 2 from rfl,
      show ((5 : Fin 10).val) = 5 from rfl]
  rw [hval, show ((3:ℚ)/10) / (1/4) = 6/5 by norm_num]
  show (6:ℚ)/5 - ⌊(6:ℚ)/5⌋ ≠ 0
  rw [show ⌊(6:ℚ)/5⌋ = 1 by rw [Int.floor_eq_iff]; norm_num]
  norm_num

/-- C3, amended: every accepted buy quantity is an exact integer multiple
of `10^(-precision)` for the precision derived from the step size; that
grid coincides with multiples of the step size exactly when the step is a
power of ten (e.g. `0.0001`), but not for steps such as `0.25`. -/
theorem C3_quantity_on_decimal_grid (cfg : Config) (action symbol : String)
    (acct : Account) (q u pr : ℚ)
    (h : execute_trade_with_percentage cfg action symbol acct
        = TradeResult.buyExecuted q u pr) :
    ∃ k : ℤ, q = (k : ℚ) / 10 ^ quantPrecision (findStepSize acct.filters) := by
  unfold execute_trade_with_percentage at h
  split_ifs at h
  all_goals try simp at h
  obtain ⟨hq, hu, hp⟩ := h
  rw [← hq]
  exact quantize_mem_grid _ _

/-- C3, witness: the grid theorem applied to the `0.25`-step account. -/
theorem C3_quantity_on_decimal_grid_witness :
    ∃ k : ℤ, (3/10 : ℚ) = (k : ℚ) / 10 ^ quantPrecision (findStepSize acctQuarterStep.filters) :=
  C3_quantity_on_decimal_grid cfgDefault "buy" "BTCUSDT" acctQuarterStep
    (3/10) 50 (500/3) execute_acctQuarterStep_eval

/-- C4, counterexample: at `freeAmount = reserveFloor = 10` the buy is
rejected, but with the `Trade amount too small` reason (line 188,
`BelowMinimumNotional`), not the `Insufficient USDT balance` reason
(line 180, `InsufficientReserve`): the balance gate at line 179 uses a
strict `<`. -/
theorem C4_counterexample :
    execute_trade_with_percentage cfgDefault "buy" "BTCUSDT" acctAtReserve
        = TradeResult.amountTooSmall 0
    ∧ isInsufficientReserve
        (execute_trade_with_percentage cfgDefault "buy" "BTCUSDT" acctAtReserve) = false := by
  have h : execute_trade_with_percentage cfgDefault "buy" "BTCUSDT" acctAtReserve
      = TradeResult.amountTooSmall 0 := by
    unfold execute_trade_with_percentage
    rw [if_neg (show ¬ acctAtReserve.assetFree "USDT" < cfgDefault.minUsdtBalance by
          show ¬ (10:ℚ) < 10; norm_num)]
    rw [show usdtToTrade cfgDefault acctAtReserve = 0 by
          show ((10:ℚ) - 10) * (5 / 100) = 0; norm_num]
    rw [if_pos (show (0:ℚ) < 10 by norm_num)]
  exact ⟨h, by rw [h]; rfl⟩

/-- C4, amended: for `freeAmount <= reserveFloor` a buy is always
rejected, with `InsufficientReserve` in the strict case
`freeAmount < reserveFloor` and with `BelowMinimumNotional` (amount 0) in
the equality case. -/
theorem C4_reserve_boundary (cfg : Config) (action symbol : String) (acct : Account)
    (h : acct.assetFree "USDT" ≤ cfg.minUsdtBalance) :
    execute_trade_with_percentage cfg action symbol acct
      = if acct.assetFree "USDT" < cfg.minUsdtBalance
          then TradeResult.insufficientBalance (acct.assetFree "USDT")
          else TradeResult.amountTooSmall 0 := by
  rcases lt_or_eq_of_le h with hlt | heq
  · rw [if_pos hlt]
    unfold execute_trade_with_percentage
    rw [if_pos hlt]
  · have hnlt : ¬ acct.assetFree "USDT" < cfg.minUsdtBalance := by
      rw [heq]
      exact lt_irrefl _
    rw [if_neg hnlt]
    unfold execute_trade_with_percentage
    rw [if_neg hnlt]
    rw [show usdtToTrade cfg acct = 0 by unfold usdtToTrade; rw [heq]; ring]
    rw [if_pos (show (0:ℚ) < 10 by norm_num)]

/-- C4, witness: the boundary theorem applied to an account with 5 free
USDT (strictly below the 10-USDT floor). -/
theorem C4_reserve_boundary_witness :
    acctPoor.assetFree "USDT" ≤ cfgDefault.minUsdtBalance
    ∧ execute_trade_with_percentage cfgDefault "buy" "BTCUSDT" acctPoor
        = if acctPoor.assetFree "USDT" < cfgDefault.minUsdtBalance
            then TradeResult.insufficientBalance (acctPoor.assetFree "USDT")
            else TradeResult.amountTooSmall 0 :=
  ⟨by show (5:ℚ) ≤ 10; norm_num,
   C4_reserve_boundary cfgDefault "buy" "BTCUSDT" acctPoor (by show (5:ℚ) ≤ 10; norm_num)⟩

/-- C5, counterexample: a sell with 5 free BTC but zero free USDT is
rejected with the `Insufficient USDT balance` reason — the quote-balance
gates at lines 179 and 187 run before the sell branch, so a sell is NOT
independent of the USDT balance and a positive base balance is NOT
sufficient for acceptance. -/
theorem C5_counterexample :
    execute_trade_with_percentage cfgDefault "sell" "BTCUSDT" acctNoUsdt
        = TradeResult.insufficientBalance 0
    ∧ acctNoUsdt.assetFree (baseAsset "BTCUSDT") = 5
    ∧ isSellAccepted
        (execute_trade_with_percentage cfgDefault "sell" "BTCUSDT" acctNoUsdt) = false := by
  have h : execute_trade_with_percentage cfgDefault "sell" "BTCUSDT" acctNoUsdt
      = TradeResult.insufficientBalance 0 := by
    unfold execute_trade_with_percentage
    rw [if_pos (show acctNoUsdt.assetFree "USDT" < cfgDefault.minUsdtBalance by
          show (0:ℚ) < 10; norm_num)]
    rfl
  exact ⟨h, rfl, by rw [h]; rfl⟩

/-- C5, amended: once the quote-balance gates pass (free USDT at least the
reserve floor, and the computed notional at least 10), a sell is rejected
with `NoAssetToSell` exactly when the free base-asset balance is zero, and
otherwise is accepted with the full free base balance as quantity. -/
theorem C5_sell_after_gates (cfg : Config) (symbol : String) (acct : Account)
    (hb : ¬ acct.assetFree "USDT" < cfg.minUsdtBalance)
    (ht : ¬ usdtToTrade cfg acct < 10) :
    (execute_trade_with_percentage cfg "sell" symbol acct
        = TradeResult.noAssetToSell (baseAsset symbol)
      ↔ acct.assetFree (baseAsset symbol) = 0)
    ∧ (acct.assetFree (baseAsset symbol) ≠ 0 →
        execute_trade_with_percentage cfg "sell" symbol acct
          = TradeResult.sellExecuted (acct.assetFree (baseAsset symbol))
              (acct.assetFree (baseAsset symbol) * acct.price) acct.price) := by
  unfold execute_trade_with_percentage
  rw [if_neg hb, if_neg ht,
    if_neg (show ¬ pyLower "sell" = "buy" by decide),
    if_pos (show pyLower "sell" = "sell" from rfl)]
  constructor
  · by_cases hz : acct.assetFree (baseAsset symbol) = 0
    · rw [if_pos hz]
      simp [hz]
    · rw [if_neg hz]
      simp [hz]
  · intro hnz
    rw [if_neg hnz]

/-- C5, witness: with ample USDT (1010) the gates pass and a sell of the
5 free BTC is accepted in full. -/
theorem C5_sell_after_gates_witness :
    execute_trade_with_percentage cfgDefault "sell" "BTCUSDT" acctRich
      = TradeResult.sellExecuted 5 500 100 := by
  have h := (C5_sell_after_gates cfgDefault "BTCUSDT" acctRich
      (by show ¬ (1010:ℚ) < 10; norm_num)
      (by show ¬ ((1010:ℚ) - 10) * (5 / 100) < 10; norm_num)).2
      (by show (5:ℚ) ≠ 0; norm_num)
  rw [h]
  show TradeResult.sellExecuted 5 ((5:ℚ) * 100) 100 = TradeResult.sellExecuted 5 500 100
  norm_num

/-- C6, counterexample: for step size `0.00100` the code's derived
precision is 3 (the fractional digits of `0.001`), not the claimed 1. -/
theorem C6_counterexample :
    (StepSize.mk 0 [0,0,1,0,0]).precision = 3
    ∧ (StepSize.mk 0 [0,0,1,0,0]).precision ≠ 1 :=
  ⟨rfl, by decide⟩

/-- C6, amended: the precision is the count of fractional digits after
stripping trailing zeros — appending trailing zeros changes neither the
precision nor the value — and step size `0.00100` yields precision 3
(that of `0.001`), not 1 and not the naive unstripped count 5. -/
theorem C6_precision_strips_trailing_zeros :
    (∀ (i : ℕ) (l : List (Fin 10)) (k : ℕ),
        (StepSize.mk i (l ++ List.replicate k 0)).precision
          = (StepSize.mk i l).precision)
    ∧ (∀ (i : ℕ) (l : List (Fin 10)) (k : ℕ),
        (StepSize.mk i (l ++ List.replicate k 0)).val = (StepSize.mk i l).val)
    ∧ (StepSize.mk 0 [0,0,1,0,0]).precision = 3 := by
  refine ⟨?_, fun i l k => stepVal_append_zeros i l k, rfl⟩
  intro i l k
  unfold StepSize.precision
  rw [stripTrailingZeros_append_zeros]

/-- C7: for any two `BUY <SYM> QTY=<n>` texts that differ only in the
embedded quantity (any nonempty `[0-9.]+` strings), and identical account
state, the whole pipeline result — in particular the order quantity — is
identical: the embedded quantity is discarded during normalization and
never influences sizing. -/
theorem C7_qty_noninterference (cfg : Config) (acct : Account) (sym n1 n2 : String)
    (hs : sym.data ≠ []) (hsw : ∀ c ∈ sym.data, pyIsWord c = true)
    (h1 : n1.data ≠ []) (hc1 : ∀ c ∈ n1.data, pyIsQty c = true)
    (h2 : n2.data ≠ []) (hc2 : ∀ c ∈ n2.data, pyIsQty c = true) :
    webhookText cfg (buyText sym n1) acct = webhookText cfg (buyText sym n2) acct := by
  unfold webhookText
  rw [parse_buyText sym n1 hs hsw h1 hc1, parse_buyText sym n2 hs hsw h2 hc2]

/-- C7, witness: the noninterference theorem at quantities `0.0083` and
`725`. -/
theorem C7_qty_noninterference_witness :
    webhookText cfgDefault (buyText "BTCUSDT" "0.0083") acctRich
      = webhookText cfgDefault (buyText "BTCUSDT" "725") acctRich :=
  C7_qty_noninterference cfgDefault acctRich "BTCUSDT" "0.0083" "725"
    (by decide) (by decide) (by decide) (by decide) (by decide) (by decide)

/-- C8: `CLOSE LONG BTCUSDT` normalizes to a sell on `BTCUSDT` and
`CLOSE SHORT BTCUSDT` to a buy on `BTCUSDT` (the close verb is inverted
into the opposite market side). -/
theorem C8_close_mapping :
    parse_tradingview_text "CLOSE LONG BTCUSDT"
        = some ⟨"sell", "BTCUSDT", "tradingview_close"⟩
    ∧ parse_tradingview_text "CLOSE SHORT BTCUSDT"
        = some ⟨"buy", "BTCUSDT", "tradingview_close"⟩ := by
  constructor
  · decide
  · decide

/-- C9, counterexample: with the unknown action `hold` and only 5 free
USDT, the webhook returns the `Insufficient USDT balance` rejection, not
`Invalid action`: the balance gates run before the action dispatch, so the
`InvalidAction` outcome is NOT independent of account state. -/
theorem C9_counterexample :
    webhook cfgDefault dataHold acctPoor
        = WebhookResult.trade (TradeResult.insufficientBalance 5)
    ∧ webhook cfgDefault dataHold acctPoor
        ≠ WebhookResult.trade (TradeResult.invalidAction "hold") := by
  have hx : execute_trade_with_percentage cfgDefault "hold" "BTCUSDT" acctPoor
      = TradeResult.insufficientBalance 5 := by
    unfold execute_trade_with_percentage
    rw [if_pos (show acctPoor.assetFree "USDT" < cfgDefault.minUsdtBalance by
          show (5:ℚ) < 10; norm_num)]
    rfl
  have h : webhook cfgDefault dataHold acctPoor
      = WebhookResult.trade (TradeResult.insufficientBalance 5) := by
    show WebhookResult.trade
        (execute_trade_with_percentage cfgDefault "hold" "BTCUSDT" acctPoor) = _
    rw [hx]
  refine ⟨h, ?_⟩
  rw [h]
  simp

/-- C9, amended: when the balance gates pass (free USDT at least the
reserve floor and computed notional at least 10), any action that
lower-cases to neither `buy` nor `sell` yields the `Invalid action`
rejection; when they do not pass, a sizing rejection is returned
instead. -/
theorem C9_invalid_action_after_gates (cfg : Config) (action symbol : String)
    (acct : Account)
    (h1 : pyLower action ≠ "buy") (h2 : pyLower action ≠ "sell")
    (hb : ¬ acct.assetFree "USDT" < cfg.minUsdtBalance)
    (ht : ¬ usdtToTrade cfg acct < 10) :
    execute_trade_with_percentage cfg action symbol acct
      = TradeResult.invalidAction action := by
  unfold execute_trade_with_percentage
  rw [if_neg hb, if_neg ht, if_neg h1, if_neg h2]

/-- C9, witness: the amended theorem at action `hold` on a well-funded
account. -/
theorem C9_invalid_action_after_gates_witness :
    execute_trade_with_percentage cfgDefault "hold" "BTCUSDT" acctRich
      = TradeResult.invalidAction "hold" :=
  C9_invalid_action_after_gates cfgDefault "hold" "BTCUSDT" acctRich
    (by decide) (by decide)
    (by show ¬ (1010:ℚ) < 10; norm_num)
    (by show ¬ ((1010:ℚ) - 10) * (5 / 100) < 10; norm_num)

/-- C10: webhook authentication is asymmetric.  A payload with a nonempty
`secret` different from the configured secret is rejected with the 401
(`invalidSecret`, which is not a trade outcome); a payload with no
`secret` field, or an empty one, skips the check entirely and proceeds to
normal processing. -/
theorem C10_secret_asymmetry (cfg : Config) (d : WebhookData) (acct : Account) :
    (∀ s, d.secret = some s → s ≠ "" → s ≠ cfg.webhookSecret →
        webhook cfg d acct = WebhookResult.invalidSecret)
    ∧ ((d.secret = none ∨ d.secret = some "") →
        webhook cfg d acct = webhookProceed cfg d acct) := by
  constructor
  · intro s hs hne hnc
    have hr : secretRejected cfg d = true := by
      simp only [secretRejected, hs]
      rw [if_neg hne, if_neg hnc]
    unfold webhook
    rw [hr, if_pos rfl]
  · intro hc
    have hr : secretRejected cfg d = false := by
      rcases hc with hcase | hcase
      · simp only [secretRejected, hcase]
      · simp [secretRejected, hcase]
    unfold webhook
    rw [hr]
    simp

/-- C10, witness: the asymmetry at a concrete wrong secret (`nope`) and a
concrete empty secret. -/
theorem C10_secret_asymmetry_witness :
    webhook cfgDefault dataWrongSecret acctRich = WebhookResult.invalidSecret
    ∧ webhook cfgDefault dataEmptySecret acctRich
        = webhookProceed cfgDefault dataEmptySecret acctRich :=
  ⟨(C10_secret_asymmetry cfgDefault dataWrongSecret acctRich).1 "nope" rfl
      (by decide) (by decide),
   (C10_secret_asymmetry cfgDefault dataEmptySecret acctRich).2 (Or.inr rfl)⟩

end TVBot

